import Mathlib

/-!
Verification of the NetKeyer cw-monitor-dnn core: a shallow embedding of the
Morse training-data generators (v2 and v3), the ratio validator, the sequence
window builder and the training-loop controller, together with theorems
settling the specified behavioural properties.

Conventions of the embedding:
- Floating-point quantities are modelled as rationals.
- A draw from np.random.normal(1.0, sigma) is modelled as 1 + sigma * z where
  z is the standard-normal draw; passing z explicitly makes each stochastic
  choice an input of the embedded function.
- random.random() and random.uniform draws are likewise explicit inputs.
-/

namespace Morse

/-- One row of the generated DataFrame: (duration_ms, is_key_down, label). -/
structure Row where
  duration_ms : ℚ
  is_key_down : ℕ
  label : ℕ
deriving Repr, DecidableEq

/-! Timing constants of generate_morse_training_data_v3.py (lines 22-29). -/

def DIT_UNITS : ℕ := 1

def DAH_UNITS : ℕ := 3

def ELEMENT_GAP : ℕ := 1

def LETTER_GAP : ℕ := 3

def WORD_GAP : ℕ := 7

/-- wpm_to_dit_duration (v3 line 36): T_dit (seconds) = 1.2 / WPM. -/
def wpm_to_dit_duration (wpm : ℚ) : ℚ := 1.2 / wpm

/-- dit_to_milliseconds (v3 line 50): units * dit_duration_sec * 1000. -/
def dit_to_milliseconds (dit_units : ℚ) (wpm : ℚ) : ℚ :=
  dit_units * wpm_to_dit_duration wpm * 1000

/-- apply_human_jitter (v3 line 65): duration_ms * np.random.normal(1.0, sigma),
then max(jittered, 1.0). The normal draw is modelled as 1 + sigma * z. -/
def apply_human_jitter (duration_ms : ℚ) (sigma : ℚ) (z : ℚ) : ℚ :=
  max (duration_ms * (1 + sigma * z)) 1

/-- The branch on `choice = random.random()` in generate_morse_dataset_v3
(v3 lines 116-141), yielding (timing_units, is_key_down, label). -/
def classify_choice (choice : ℚ) : ℕ × ℕ × ℕ :=
  if choice < 20/100 then (DIT_UNITS, 1, 0)
  else if choice < 35/100 then (DAH_UNITS, 1, 1)
  else if choice < 55/100 then (ELEMENT_GAP, 0, 2)
  else if choice < 80/100 then (LETTER_GAP, 0, 3)
  else (WORD_GAP, 0, 4)

/-- One loop iteration of generate_morse_dataset_v3 (v3 lines 115-149):
classify the choice, convert units to milliseconds, apply jitter. -/
def gen_element_v3 (choice : ℚ) (wpm : ℚ) (sigma : ℚ) (z : ℚ) : Row :=
  match classify_choice choice with
  | (units, key, label) =>
    { duration_ms := apply_human_jitter (dit_to_milliseconds (units : ℚ) wpm) sigma z
      is_key_down := key
      label := label }

/-- generate_morse_dataset_v3 (v3 lines 80-154), Policy A.  The source
resamples current_wpm when i % 100 == 0 and holds it otherwise, so the wpm
in effect at sample i is the (i / 100)-th uniform draw; choiceDraws i and
zDraws i are the random.random() and normal draws of iteration i.  The
source fixes sigma = JITTER_SIGMA = 0.08; it is kept as a parameter. -/
def generate_morse_dataset_v3 (num_samples : ℕ) (wpmDraws : ℕ → ℚ)
    (choiceDraws : ℕ → ℚ) (zDraws : ℕ → ℚ) (sigma : ℚ) : List Row :=
  (List.range num_samples).map fun i =>
    gen_element_v3 (choiceDraws i) (wpmDraws (i / 100)) sigma (zDraws i)

/-- A symbol of a Morse pattern: a dot or a dash. -/
inductive Sym where
  | dot : Sym
  | dash : Sym
deriving Repr, DecidableEq

/-- The morse_code table of generate_sequence_based_data_v3 (v3 lines 169-178);
the same table appears in generate_morse_training_data_v2.py lines 95-104. -/
def morse_code : List (Char × List Sym) :=
  [('A', [.dot, .dash]), ('B', [.dash, .dot, .dot, .dot]),
   ('C', [.dash, .dot, .dash, .dot]), ('D', [.dash, .dot, .dot]),
   ('E', [.dot]), ('F', [.dot, .dot, .dash, .dot]),
   ('G', [.dash, .dash, .dot]), ('H', [.dot, .dot, .dot, .dot]),
   ('I', [.dot, .dot]), ('J', [.dot, .dash, .dash, .dash]),
   ('K', [.dash, .dot, .dash]), ('L', [.dot, .dash, .dot, .dot]),
   ('M', [.dash, .dash]), ('N', [.dash, .dot]),
   ('O', [.dash, .dash, .dash]), ('P', [.dot, .dash, .dash, .dot]),
   ('Q', [.dash, .dash, .dot, .dash]), ('R', [.dot, .dash, .dot]),
   ('S', [.dot, .dot, .dot]), ('T', [.dash]),
   ('U', [.dot, .dot, .dash]), ('V', [.dot, .dot, .dot, .dash]),
   ('W', [.dot, .dash, .dash]), ('X', [.dash, .dot, .dot, .dash]),
   ('Y', [.dash, .dot, .dash, .dash]), ('Z', [.dash, .dash, .dot, .dot]),
   ('0', [.dash, .dash, .dash, .dash, .dash]),
   ('1', [.dot, .dash, .dash, .dash, .dash]),
   ('2', [.dot, .dot, .dash, .dash, .dash]),
   ('3', [.dot, .dot, .dot, .dash, .dash]),
   ('4', [.dot, .dot, .dot, .dot, .dash]),
   ('5', [.dot, .dot, .dot, .dot, .dot]),
   ('6', [.dash, .dot, .dot, .dot, .dot]),
   ('7', [.dash, .dash, .dot, .dot, .dot]),
   ('8', [.dash, .dash, .dash, .dot, .dot]),
   ('9', [.dash, .dash, .dash, .dash, .dot])]

/-- The pulse for one pattern symbol (v3 lines 195-201), as the triple
(timing_units, is_key_down, label): a dot gives a Dit, a dash a Dah. -/
def pulse_elt : Sym → ℕ × ℕ × ℕ
  | .dot => (DIT_UNITS, 1, 0)
  | .dash => (DAH_UNITS, 1, 1)

/-- The (units, key, label) element stream of the inner loop of
generate_sequence_based_data_v3 (v3 lines 194-212): for each symbol a pulse,
and after each pulse except the last an ElementSpace gap (label 2). -/
def pattern_elements : List Sym → List (ℕ × ℕ × ℕ)
  | [] => []
  | s :: rest =>
    pulse_elt s ::
      (if rest.isEmpty then [] else (ELEMENT_GAP, 0, 2) :: pattern_elements rest)

/-- The element stream of one character of generate_sequence_based_data_v3
(v3 lines 194-224): the pattern pulses and internal gaps, then the terminal
gap: a WordSpace (7 units, label 4) when random.random() < 0.25, otherwise a
LetterSpace (3 units, label 3). -/
def char_elements (pattern : List Sym) (t : ℚ) : List (ℕ × ℕ × ℕ) :=
  pattern_elements pattern ++
    [if t < 25/100 then (WORD_GAP, 0, 4) else (LETTER_GAP, 0, 3)]

/-- Attach v3 durations to an element stream: element number i of the
character receives duration apply_human_jitter(dit_to_milliseconds(units,
wpm), sigma) with its own jitter draw z i, exactly as each append in v3
lines 203-224 computes its duration. -/
def attach_durations (wpm sigma : ℚ) (z : ℕ → ℚ) :
    List (ℕ × ℕ × ℕ) → ℕ → List Row
  | [], _ => []
  | e :: rest, i =>
    { duration_ms := apply_human_jitter (dit_to_milliseconds (e.1 : ℚ) wpm) sigma (z i)
      is_key_down := e.2.1
      label := e.2.2 } :: attach_durations wpm sigma z rest (i + 1)

/-- All rows appended for one character by generate_sequence_based_data_v3. -/
def emit_char_v3 (pattern : List Sym) (wpm sigma : ℚ) (z : ℕ → ℚ) (t : ℚ) :
    List Row :=
  attach_durations wpm sigma z (char_elements pattern t) 0

/-- generate_sequence_based_data_v3 (v3 lines 157-228), Policy B.  The source
resamples current_wpm when i % 50 == 0, so the wpm in effect at character i
is the (i / 50)-th uniform draw; patDraws i is the pattern of the character
drawn by random.choice from the morse_code table, tDraws i the terminal-gap
draw, and zDraws i the per-element jitter draws of character i. -/
def generate_sequence_based_data_v3 (num_characters : ℕ) (wpmDraws : ℕ → ℚ)
    (patDraws : ℕ → List Sym) (zDraws : ℕ → ℕ → ℚ) (tDraws : ℕ → ℚ)
    (sigma : ℚ) : List Row :=
  (List.range num_characters).flatMap fun i =>
    emit_char_v3 (patDraws i) (wpmDraws (i / 50)) sigma (zDraws i) (tDraws i)

/-! The training loop of train_morse_model_v3.py (train_model, lines 186-268).
The per-epoch optimization and validation passes are opaque to the claims:
what decides the control flow is the sequence of per-epoch mean validation
losses.  A Python float validation loss is finite, NaN or infinite; the
initial best is float('inf').  All comparisons with NaN are false. -/

/-- A validation-loss value: a finite rational, NaN, or +infinity
(the initial value of best_val_loss, v3 line 193). -/
inductive Loss where
  | fin : ℚ → Loss
  | nan : Loss
  | inf : Loss
deriving Repr, DecidableEq

/-- The Python `<` on these values: any comparison with NaN is false,
a finite value is below inf, and inf is below nothing. -/
def lossLt : Loss → Loss → Bool
  | .nan, _ => false
  | _, .nan => false
  | .fin a, .fin b => decide (a < b)
  | .fin _, .inf => true
  | .inf, _ => false

/-- The controller state of train_model: best_val_loss (v3 line 193),
patience_counter (line 194) and best_model_state (line 195).  The snapshot is
recorded as the 0-based index of the epoch at which it was taken. -/
structure TrainState where
  best_val_loss : Loss
  patience_counter : ℕ
  best_model_state : Option ℕ
deriving Repr, DecidableEq

/-- The epoch loop of train_model (v3 lines 197-262) driven by the list of
remaining per-epoch validation losses.  epoch is the 0-based index of the
current epoch; the result is (number of epochs run, final state).  If
val_loss < best_val_loss the state improves (line 254-257); otherwise the
patience counter is incremented and, once it reaches patience, the loop
breaks (lines 258-262). -/
def runEpochs (patience : ℕ) : List Loss → ℕ → TrainState → ℕ × TrainState
  | [], epoch, st => (epoch, st)
  | vl :: rest, epoch, st =>
    if lossLt vl st.best_val_loss then
      runEpochs patience rest (epoch + 1) ⟨vl, 0, some epoch⟩
    else if patience ≤ st.patience_counter + 1 then
      (epoch + 1, { st with patience_counter := st.patience_counter + 1 })
    else
      runEpochs patience rest (epoch + 1)
        { st with patience_counter := st.patience_counter + 1 }

/-- train_model (v3 lines 186-268) as a function of the per-epoch validation
losses; the epoch budget is the length of the list (`for epoch in
range(epochs)` with one loss per epoch). -/
def train_model (losses : List Loss) (patience : ℕ) : ℕ × TrainState :=
  runEpochs patience losses 0 ⟨.inf, 0, none⟩

/-- The parameter value held by the model when train_model returns.
paramSeq i is the (opaque) parameter value after i epochs of in-place
optimizer.step updates; paramSeq 0 is the initial value.  In the source,
best_model_state = model.state_dict().copy() (v3 line 257) is a shallow
copy: state_dict returns references to the live parameter tensors, which
optimizer.step mutates in place, so at line 266 load_state_dict copies the
current (last-epoch) values back into themselves.  Hence the final value is
paramSeq of the number of epochs run, whether or not a snapshot was taken. -/
def train_model_final_params {P : Type} (paramSeq : ℕ → P)
    (losses : List Loss) (patience : ℕ) : P :=
  match train_model losses patience with
  | (epochsRun, st) =>
    match st.best_model_state with
    | some _ => paramSeq epochsRun
    | none => paramSeq epochsRun

/-- Modelled from the spec: the restore step as section 4.5 describes it,
with best_parameter_snapshot an independent copy of the parameters taken
just after the optimization pass of the best epoch (epoch index i gives
paramSeq (i + 1)); when no snapshot exists the last parameters remain. -/
def spec_final_params {P : Type} (paramSeq : ℕ → P)
    (losses : List Loss) (patience : ℕ) : P :=
  match train_model losses patience with
  | (epochsRun, st) =>
    match st.best_model_state with
    | some i => paramSeq (i + 1)
    | none => paramSeq epochsRun

/-- create_sequences inside prepare_sequence_data (v3 lines 171-183):
for i in range(len(X) - seq_len), pair X[i:i+seq_len] with y[i+seq_len].
d is the out-of-range default of the index model (never reached when
y is at least as long as X). -/
def create_sequences {α β : Type} (X : List α) (y : List β) (seq_len : ℕ)
    (d : β) : List (List α × β) :=
  (List.range (X.length - seq_len)).map fun i =>
    ((X.drop i).take seq_len, y.getD (i + seq_len) d)

/-- prepare_sequence_data (v3 lines 171-183): create_sequences applied to the
train and test streams with one sequence_length. -/
def prepare_sequence_data {α β : Type} (Xtr Xte : List α) (ytr yte : List β)
    (sequence_length : ℕ) (d : β) :
    List (List α × β) × List (List α × β) :=
  (create_sequences Xtr ytr sequence_length d,
   create_sequences Xte yte sequence_length d)

/-! The ratio validator, validate_timing_standards
(generate_morse_training_data_v3.py lines 231-299). -/

/-- The duration_ms values of the rows with the given label
(the df[mask] selection of v3 lines 256-259). -/
def label_durations (df : List Row) (label : ℕ) : List ℚ :=
  (df.filter fun r => r.label = label).map fun r => r.duration_ms

/-- The mean of a list of rationals. -/
def mean (l : List ℚ) : ℚ := l.sum / (l.length : ℚ)

/-- The mean duration_ms of the rows with the given label. -/
def mean_duration (df : List Row) (label : ℕ) : ℚ :=
  mean (label_durations df label)

/-- The ratio results[label].mean / dit_mean computed at v3 lines 274 and
280-287, with Dit (label 0) as the baseline. -/
def ratio_vs_dit (df : List Row) (label : ℕ) : ℚ :=
  mean_duration df label / mean_duration df 0

/-- One entry of the results dict of validate_timing_standards (v3 lines
255-265): present, with the mean duration and the count, exactly when the
class has at least one element.  The standard deviation computed alongside
is only printed and never used in a verdict, so it is not modelled. -/
def results_entry (df : List Row) (label : ℕ) : Option (ℚ × ℕ) :=
  if 0 < (label_durations df label).length then
    some (mean_duration df label, (label_durations df label).length)
  else none

/-- validate_timing_standards (v3 lines 231-299).  The returned value models
the results dict (entries for labels 0-4) plus the three pass/fail verdicts
of lines 289-292 (tolerance 0.20).  The source reads results[0] at line 268
and results[1], results[3], results[4] at lines 280-287 unconditionally;
a missing key raises KeyError, modelled here as none. -/
def validate_timing_standards (df : List Row) :
    Option (List (Option (ℚ × ℕ)) × (Bool × Bool × Bool)) :=
  match results_entry df 0, results_entry df 1,
        results_entry df 3, results_entry df 4 with
  | some ditE, some dahE, some letterE, some wordE =>
    let dah_r := dahE.1 / ditE.1
    let letter_r := letterE.1 / ditE.1
    let word_r := wordE.1 / ditE.1
    some ((List.range 5).map (results_entry df),
      (decide (|dah_r - 3| / 3 < 20/100),
       decide (|letter_r - 3| / 3 < 20/100),
       decide (|word_r - 7| / 7 < 20/100)))
  | _, _, _, _ => none

/-! The v2 generator, generate_morse_training_data_v2.py. -/

/-- The v2 jitter lambda (v2 lines 35 and 116):
x * np.random.normal(1.0, 0.08), with no lower floor. -/
def jitter_v2 (x : ℚ) (z : ℚ) : ℚ := x * (1 + 8/100 * z)

/-- One loop iteration of generate_morse_dataset_v2 (v2 lines 29-57):
current_dit is base_dit_ms scaled by the uniform(0.8, 1.2) draw u, and the
four branches on choice produce Dit, Dah, ElementSpace or WordSpace. -/
def gen_element_v2 (choice : ℚ) (current_dit : ℚ) (z : ℚ) : Row :=
  if choice < 25/100 then ⟨jitter_v2 current_dit z, 1, 0⟩
  else if choice < 50/100 then ⟨jitter_v2 (current_dit * 3) z, 1, 1⟩
  else if choice < 75/100 then ⟨jitter_v2 current_dit z, 0, 2⟩
  else ⟨jitter_v2 (current_dit * 7) z, 0, 3⟩

/-- generate_morse_dataset_v2 (v2 lines 10-86): each draw is
(u, choice, z) with u the uniform(0.8, 1.2) speed factor. -/
def generate_morse_dataset_v2 (draws : List (ℚ × ℚ × ℚ))
    (base_dit_ms : ℚ) : List Row :=
  draws.map fun d => gen_element_v2 d.2.1 (base_dit_ms * d.1) d.2.2

/-- The element stream of one character of generate_sequence_based_data
(v2 lines 119-134), as (canonical dit-unit multiple, key, label): the pulses
and internal 1-unit gaps are as in v3 (labels 0, 1, 2), and the terminal gap
is a 7-unit WordSpace (label 3) when random.random() < 0.3, otherwise a
3-unit gap recorded with the same label 2 as the internal ElementSpace. -/
def char_elements_v2 (pattern : List Sym) (t : ℚ) : List (ℕ × ℕ × ℕ) :=
  pattern_elements pattern ++
    [if t < 3/10 then (7, 0, 3) else (3, 0, 2)]

/-- Attach v2 durations: element i receives jitter_v2(current_dit * units)
with its own draw z i, as each append in v2 lines 119-134. -/
def attach_durations_v2 (current_dit : ℚ) (z : ℕ → ℚ) :
    List (ℕ × ℕ × ℕ) → ℕ → List Row
  | [], _ => []
  | e :: rest, i =>
    { duration_ms := jitter_v2 (current_dit * (e.1 : ℚ)) (z i)
      is_key_down := e.2.1
      label := e.2.2 } :: attach_durations_v2 current_dit z rest (i + 1)

/-- All rows appended for one character by generate_sequence_based_data
(v2 lines 108-134). -/
def emit_char_v2 (pattern : List Sym) (current_dit : ℚ) (z : ℕ → ℚ)
    (t : ℚ) : List Row :=
  attach_durations_v2 current_dit z (char_elements_v2 pattern t) 0

/-- The unit multiple the source attributes to each label
(the expected = [1, 3, 1, 3, 7][label] of v3 line 275). -/
def unitsOfLabel : ℕ → ℕ
  | 0 => 1
  | 1 => 3
  | 2 => 1
  | 3 => 3
  | 4 => 7
  | _ => 0

/-! Helper lemmas about list indexing and the epoch loop. -/

theorem getD_map_fin (l : List ℚ) (j : ℕ) (h : j < l.length) :
    (l.map Loss.fin).getD j .nan = .fin (l.getD j 0) := by
  simp [List.getD_eq_getElem?_getD, List.getElem?_map, List.getElem?_eq_getElem h]

theorem getD_drop {α : Type} (l : List α) (n j : ℕ) (d : α) :
    (l.drop n).getD j d = l.getD (n + j) d := by
  simp [List.getD_eq_getElem?_getD, List.getElem?_drop]

/-- While each epoch improves on the best validation loss seen so far, the
loop keeps snapshotting and resetting the counter: consuming k improving
epochs leaves the loop at epoch + k with the k-th loss as best and the
snapshot taken at the last of them. -/
theorem runEpochs_improve (patience : ℕ) :
    ∀ (k : ℕ) (losses : List Loss) (epoch : ℕ) (st : TrainState),
      1 ≤ k → k ≤ losses.length →
      lossLt (losses.getD 0 .nan) st.best_val_loss = true →
      (∀ j, j + 1 < k → lossLt (losses.getD (j + 1) .nan) (losses.getD j .nan) = true) →
      runEpochs patience losses epoch st =
        runEpochs patience (losses.drop k) (epoch + k)
          ⟨losses.getD (k - 1) .nan, 0, some (epoch + k - 1)⟩ := by
  intro k
  induction k with
  | zero => intro losses epoch st h1; omega
  | succ k ih =>
    intro losses epoch st _ hlen h0 hchain
    cases losses with
    | nil => simp at hlen
    | cons vl rest =>
      rw [List.getD_cons_zero] at h0
      rw [runEpochs, if_pos h0]
      cases Nat.eq_zero_or_pos k with
      | inl hk0 =>
        subst hk0
        simp
      | inr hk1 =>
        have h0' : lossLt (rest.getD 0 .nan)
            (TrainState.mk vl 0 (some epoch)).best_val_loss = true := by
          have := hchain 0 (by omega)
          simpa using this
        have hchain' : ∀ j, j + 1 < k →
            lossLt (rest.getD (j + 1) .nan) (rest.getD j .nan) = true := by
          intro j hj
          have := hchain (j + 1) (by omega)
          simpa using this
        have hrest : k ≤ rest.length := by
          simp at hlen; omega
        rw [ih rest (epoch + 1) _ hk1 hrest h0' hchain']
        obtain ⟨k', rfl⟩ : ∃ k', k = k' + 1 := ⟨k - 1, by omega⟩
        have e1 : epoch + 1 + (k' + 1) = epoch + (k' + 1 + 1) := by omega
        have e2 : epoch + 1 + (k' + 1) - 1 = epoch + (k' + 1 + 1) - 1 := by omega
        simp [e1, e2]

/-- While no epoch improves on the best validation loss, the loop only
increments the patience counter; once the counter reaches patience (after k
epochs, where the counter started at patience - k) the loop breaks, with
best value and snapshot untouched. -/
theorem runEpochs_stall (patience : ℕ) :
    ∀ (k : ℕ) (losses : List Loss) (epoch : ℕ) (st : TrainState),
      1 ≤ k → k ≤ losses.length →
      st.patience_counter + k = patience →
      (∀ j, j < k → lossLt (losses.getD j .nan) st.best_val_loss = false) →
      runEpochs patience losses epoch st =
        (epoch + k, ⟨st.best_val_loss, patience, st.best_model_state⟩) := by
  intro k
  induction k with
  | zero => intro losses epoch st h1; omega
  | succ k ih =>
    intro losses epoch st _ hlen hpc hstall
    cases losses with
    | nil => simp at hlen
    | cons vl rest =>
      have h0 : lossLt vl st.best_val_loss = false := by
        have := hstall 0 (by omega)
        simpa using this
      rw [runEpochs, if_neg (by simp [h0])]
      cases Nat.eq_zero_or_pos k with
      | inl hk0 =>
        subst hk0
        rw [if_pos (by omega)]
        have hp1 : st.patience_counter + 1 = patience := by omega
        simp [hp1]
      | inr hk1 =>
        rw [if_neg (by omega)]
        have hstall' : ∀ j, j < k →
            lossLt (rest.getD j .nan)
              ({ st with patience_counter := st.patience_counter + 1 } :
                TrainState).best_val_loss = false := by
          intro j hj
          have := hstall (j + 1) (by omega)
          simpa using this
        have hrest : k ≤ rest.length := by
          simp at hlen; omega
        rw [ih rest (epoch + 1) _ hk1 hrest (by simp; omega) hstall']
        have e1 : epoch + 1 + k = epoch + (k + 1) := by omega
        simp [e1]

/-! Claim theorems for the training-loop controller. -/

/-- Claim C1 (code bug, evaluated at the failing input): with per-epoch
validation losses [1, 2, 2] and patience 10, the budget is exhausted after 3
epochs, the minimal validation loss is at epoch 1 (index 0, snapshot value
paramSeq 1), yet train_model returns the last-epoch parameters paramSeq 3,
because best_model_state = model.state_dict().copy() is a shallow copy whose
tensors alias the live parameters that optimizer.step mutates in place, so
the final load_state_dict restores the last-seen values.  The restore the
spec describes would return paramSeq 1, and the two differ. -/
theorem c1_restore_returns_last_epoch_params :
    train_model_final_params (fun i => i) ([1, 2, 2].map Loss.fin) 10 = 3 ∧
    spec_final_params (fun i => i) ([1, 2, 2].map Loss.fin) 10 = 1 ∧
    (3 : ℕ) ≠ 1 := by
  refine ⟨?_, ?_, by decide⟩ <;> decide

/-- Claim C2: for any per-epoch validation-loss sequence that strictly
decreases for the first 5 epochs and then stays flat (equal to the epoch-5
value) for the next patience epochs, train_model stops after exactly
5 + patience epochs, with the best snapshot the one taken at epoch 5
(0-based index 4), the best value the epoch-5 loss, and the stall counter
at patience.  The improvement rule (reset to 0 and snapshot on strict
decrease) and the stall rule (increment, stop at patience) are what the
proof runs on, via runEpochs_improve and runEpochs_stall. -/
theorem c2_flat_patience_early_stop (losses : List ℚ) (patience : ℕ)
    (hp : 1 ≤ patience) (hlen : 5 + patience ≤ losses.length)
    (hdec : ∀ i, i < 4 → losses.getD (i + 1) 0 < losses.getD i 0)
    (hflat : ∀ i, i < 5 + patience → 5 ≤ i → losses.getD i 0 = losses.getD 4 0) :
    train_model (losses.map Loss.fin) patience =
      (5 + patience, ⟨Loss.fin (losses.getD 4 0), patience, some 4⟩) := by
  have hL : (losses.map Loss.fin).length = losses.length := by simp
  have step1 := runEpochs_improve patience 5 (losses.map Loss.fin) 0
    ⟨.inf, 0, none⟩ (by omega) (by omega) ?h0 ?hc
  case h0 =>
    rw [getD_map_fin _ 0 (by omega)]
    rfl
  case hc =>
    intro j hj
    rw [getD_map_fin _ (j + 1) (by omega), getD_map_fin _ j (by omega)]
    exact decide_eq_true (hdec j (by omega))
  · simp only [show (0 : ℕ) + 5 = 5 from rfl, show (5 : ℕ) - 1 = 4 from rfl,
      show (0 : ℕ) + 5 - 1 = 4 from rfl] at step1
    rw [getD_map_fin losses 4 (by omega)] at step1
    have step2 := runEpochs_stall patience patience
      ((losses.map Loss.fin).drop 5) 5 ⟨Loss.fin (losses.getD 4 0), 0, some 4⟩
      hp (by simp [hL]; omega) (by simp) ?stall
    case stall =>
      intro j hj
      rw [getD_drop, getD_map_fin _ (5 + j) (by omega),
          hflat (5 + j) (by omega) (by omega)]
      exact decide_eq_false (lt_irrefl _)
    · unfold train_model
      rw [step1, step2]

/-- Witness for C2 at patience 3 and losses [5, 4, 3, 2, 1, 1, 1, 1]:
termination after epoch 8 = 5 + 3 with the epoch-5 snapshot. -/
theorem c2_flat_patience_early_stop_witness :
    train_model ([(5 : ℚ), 4, 3, 2, 1, 1, 1, 1].map Loss.fin) 3 =
      (8, ⟨Loss.fin 1, 3, some 4⟩) := by
  have h := c2_flat_patience_early_stop [5, 4, 3, 2, 1, 1, 1, 1] 3
    (by decide) (by decide) (by decide) (by decide)
  simpa using h

/-- Claim C8, counterexample: with validation losses [1, NaN, NaN] and
patience 2, train_model does not abort when the non-finite loss appears at
epoch 2 (index 1): it keeps iterating (3 epochs run, one full epoch after
the first NaN), treats each NaN as a stall (NaN < best is false), and
returns normally by early stop with the stale epoch-1 snapshot. -/
theorem c8_nan_does_not_abort_cex :
    train_model [Loss.fin 1, .nan, .nan] 2 =
      (3, ⟨Loss.fin 1, 2, some 0⟩) ∧ 2 < 3 := by
  exact ⟨by decide, by decide⟩

/-- Claim C8 as amended: train_model has no finiteness check and no abort
path.  After one finite-loss epoch followed by NaN validation losses, the
run continues: each NaN epoch only increments the stall counter (every
comparison with NaN is false, so NaN never becomes best_val_loss and never
takes a snapshot), and after exactly patience further epochs the loop stops
by early stopping, returning normally with the pre-NaN best and snapshot. -/
theorem c8_nan_treated_as_stall (patience n : ℕ) (b : ℚ) (hp : 1 ≤ patience) :
    train_model (Loss.fin b :: List.replicate (patience + n) Loss.nan) patience =
      (1 + patience, ⟨Loss.fin b, patience, some 0⟩) := by
  unfold train_model
  rw [runEpochs, if_pos (by rfl)]
  rw [runEpochs_stall patience patience (List.replicate (patience + n) Loss.nan)
    1 ⟨Loss.fin b, 0, some 0⟩ hp (by simp) (by simp) ?stall]
  case stall =>
    intro j hj
    have hjn : j < patience + n := by omega
    have hget : (List.replicate (patience + n) Loss.nan).getD j .nan = .nan := by
      simp [List.getD_eq_getElem?_getD, List.getElem?_replicate, hjn]
    rw [hget]
    rfl

/-- Witness for C8 as amended, at patience 2, one trailing extra NaN,
b = 1: the run lasts 1 + 2 epochs and keeps the epoch-1 snapshot. -/
theorem c8_nan_treated_as_stall_witness :
    train_model [Loss.fin 1, .nan, .nan, .nan] 2 =
      (3, ⟨Loss.fin 1, 2, some 0⟩) := by
  have h := c8_nan_treated_as_stall 2 1 1 (by decide)
  simpa using h

/-! Helper lemmas about the element-stream generators. -/

/-- Every element produced by gen_element_v3 carries one of the five
(is_key_down, label) pairs of the v3 scheme. -/
theorem gen_element_v3_class (c w sigma z : ℚ) :
    ((gen_element_v3 c w sigma z).is_key_down, (gen_element_v3 c w sigma z).label)
      = (1, 0) ∨
    ((gen_element_v3 c w sigma z).is_key_down, (gen_element_v3 c w sigma z).label)
      = (1, 1) ∨
    ((gen_element_v3 c w sigma z).is_key_down, (gen_element_v3 c w sigma z).label)
      = (0, 2) ∨
    ((gen_element_v3 c w sigma z).is_key_down, (gen_element_v3 c w sigma z).label)
      = (0, 3) ∨
    ((gen_element_v3 c w sigma z).is_key_down, (gen_element_v3 c w sigma z).label)
      = (0, 4) := by
  unfold gen_element_v3 classify_choice
  split_ifs <;> simp

/-- Attaching durations does not change keys or labels. -/
theorem attach_durations_map_class (wpm sigma : ℚ) (z : ℕ → ℚ) :
    ∀ (l : List (ℕ × ℕ × ℕ)) (i : ℕ),
      (attach_durations wpm sigma z l i).map (fun r => (r.is_key_down, r.label))
        = l.map fun e => (e.2.1, e.2.2) := by
  intro l
  induction l with
  | nil => intro i; rfl
  | cons e rest ih => intro i; simp [attach_durations, ih]

/-- Attaching durations preserves the length of the element stream. -/
theorem attach_durations_length (wpm sigma : ℚ) (z : ℕ → ℚ) :
    ∀ (l : List (ℕ × ℕ × ℕ)) (i : ℕ),
      (attach_durations wpm sigma z l i).length = l.length := by
  intro l
  induction l with
  | nil => intro i; rfl
  | cons e rest ih => intro i; simp [attach_durations, ih]

/-- Every row produced by attach_durations comes from one stream element,
with the duration the jittered unit count of that element. -/
theorem attach_durations_mem (wpm sigma : ℚ) (z : ℕ → ℚ) :
    ∀ (l : List (ℕ × ℕ × ℕ)) (i : ℕ) (r : Row),
      r ∈ attach_durations wpm sigma z l i →
      ∃ e ∈ l, ∃ j, r = ⟨apply_human_jitter (dit_to_milliseconds (e.1 : ℚ) wpm)
        sigma (z j), e.2.1, e.2.2⟩ := by
  intro l
  induction l with
  | nil => intro i r hr; simp [attach_durations] at hr
  | cons e rest ih =>
    intro i r hr
    rw [attach_durations] at hr
    rcases List.mem_cons.mp hr with hr | hr
    · exact ⟨e, by simp, i, hr⟩
    · obtain ⟨e', he', j, hj⟩ := ih (i + 1) r hr
      exact ⟨e', by simp [he'], j, hj⟩

/-- Every element of a pattern stream is a Dit pulse, a Dah pulse or a
1-unit ElementSpace gap. -/
theorem pattern_elements_mem :
    ∀ (p : List Sym), ∀ e ∈ pattern_elements p,
      e = (1, 1, 0) ∨ e = (3, 1, 1) ∨ e = (1, 0, 2) := by
  intro p
  induction p with
  | nil => intro e he; simp [pattern_elements] at he
  | cons s rest ih =>
    intro e he
    rw [pattern_elements] at he
    rcases List.mem_cons.mp he with he | he
    · subst he
      cases s <;> simp [pulse_elt, DIT_UNITS, DAH_UNITS]
    · rcases rest with _ | ⟨r, rs⟩
      · simp at he
      · simp at he
        rcases he with he | he
        · simp [he, ELEMENT_GAP]
        · exact ih e he

/-- The pattern stream is the pulses of the pattern, in order, interspersed
with single ElementSpace gaps: a gap between each pair of consecutive
pulses and never after the last one. -/
theorem pattern_elements_eq_intersperse :
    ∀ (p : List Sym),
      pattern_elements p = List.intersperse (1, 0, 2) (p.map pulse_elt) := by
  intro p
  induction p with
  | nil => rfl
  | cons s rest ih =>
    rcases rest with _ | ⟨r, rs⟩
    · rfl
    · rw [pattern_elements]
      simp only [List.isEmpty_cons]
      rw [ih]
      rfl

/-- Mapping a function over an interspersed list intersperses the images. -/
theorem intersperse_map {α β : Type} (f : α → β) (sep : α) :
    ∀ (l : List α),
      (List.intersperse sep l).map f = List.intersperse (f sep) (l.map f) := by
  intro l
  induction l with
  | nil => rfl
  | cons a rest ih =>
    rcases rest with _ | ⟨b, bs⟩
    · rfl
    · show f a :: f sep :: (List.intersperse sep (b :: bs)).map f = _
      rw [ih]
      rfl

/-- A nonempty pattern of k symbols yields 2k - 1 stream elements
(k pulses and k - 1 internal gaps). -/
theorem pattern_elements_length :
    ∀ (p : List Sym), p ≠ [] →
      (pattern_elements p).length = 2 * p.length - 1 := by
  intro p
  induction p with
  | nil => intro h; exact absurd rfl h
  | cons s rest ih =>
    intro _
    rcases rest with _ | ⟨r, rs⟩
    · rfl
    · rw [pattern_elements]
      simp only [List.isEmpty_cons]
      have := ih (by simp)
      simp only [List.length_cons] at this ⊢
      simp [this]
      omega

/-- Every element of a v3 character stream carries one of the five
(units, key, label) triples of the v3 scheme. -/
theorem char_elements_mem (p : List Sym) (t : ℚ) :
    ∀ e ∈ char_elements p t,
      e = (1, 1, 0) ∨ e = (3, 1, 1) ∨ e = (1, 0, 2) ∨
      e = (3, 0, 3) ∨ e = (7, 0, 4) := by
  intro e he
  rw [char_elements, List.mem_append] at he
  rcases he with he | he
  · rcases pattern_elements_mem p e he with h | h | h <;> simp [h]
  · simp only [List.mem_singleton] at he
    by_cases ht : t < 25/100 <;> simp [ht] at he <;> simp [he, WORD_GAP, LETTER_GAP]

/-! Claim theorems for the element-stream generators. -/

/-- Claim C3: every row emitted by either v3 generation policy has
is_key_down = 1 exactly when its label is Dit (0) or Dah (1), and
is_key_down = 0 exactly when its label is one of the three gap classes
(2, 3, 4). -/
theorem c3_key_down_iff_pulse
    (n : ℕ) (wD cD zD : ℕ → ℚ) (sigma : ℚ)
    (nc : ℕ) (wD2 : ℕ → ℚ) (pD : ℕ → List Sym) (zD2 : ℕ → ℕ → ℚ)
    (tD : ℕ → ℚ) (sigma2 : ℚ) (r : Row)
    (hr : r ∈ generate_morse_dataset_v3 n wD cD zD sigma ∨
          r ∈ generate_sequence_based_data_v3 nc wD2 pD zD2 tD sigma2) :
    (r.is_key_down = 1 ↔ r.label = 0 ∨ r.label = 1) ∧
    (r.is_key_down = 0 ↔ r.label = 2 ∨ r.label = 3 ∨ r.label = 4) := by
  have hclass : (r.is_key_down, r.label) = (1, 0) ∨
      (r.is_key_down, r.label) = (1, 1) ∨ (r.is_key_down, r.label) = (0, 2) ∨
      (r.is_key_down, r.label) = (0, 3) ∨ (r.is_key_down, r.label) = (0, 4) := by
    rcases hr with hr | hr
    · rw [generate_morse_dataset_v3, List.mem_map] at hr
      obtain ⟨i, _, rfl⟩ := hr
      exact gen_element_v3_class _ _ _ _
    · rw [generate_sequence_based_data_v3, List.mem_flatMap] at hr
      obtain ⟨i, _, hmem⟩ := hr
      obtain ⟨e, he, j, rfl⟩ := attach_durations_mem _ _ _ _ _ _ hmem
      rcases char_elements_mem _ _ e he with h | h | h | h | h <;> simp [h]
  rcases hclass with h | h | h | h | h <;>
    · simp only [Prod.mk.injEq] at h
      rw [h.1, h.2]
      simp

/-- Witness for C3: a concrete row of each policy, checked through the
theorem at those rows. -/
theorem c3_key_down_iff_pulse_witness :
    ((⟨60, 1, 0⟩ : Row).is_key_down = 1 ↔
      (⟨60, 1, 0⟩ : Row).label = 0 ∨ (⟨60, 1, 0⟩ : Row).label = 1) ∧
    ((⟨60, 1, 0⟩ : Row).is_key_down = 0 ↔
      (⟨60, 1, 0⟩ : Row).label = 2 ∨ (⟨60, 1, 0⟩ : Row).label = 3 ∨
      (⟨60, 1, 0⟩ : Row).label = 4) := by
  have h : generate_morse_dataset_v3 1 (fun _ => 20) (fun _ => 1/10)
      (fun _ => 0) 0 = [⟨60, 1, 0⟩] := by
    norm_num [generate_morse_dataset_v3, gen_element_v3, classify_choice,
      apply_human_jitter, dit_to_milliseconds, wpm_to_dit_duration, DIT_UNITS]
  exact c3_key_down_iff_pulse 1 (fun _ => 20) (fun _ => 1/10) (fun _ => 0) 0
    1 (fun _ => 20) (fun _ => [Sym.dot]) (fun _ _ => 0) (fun _ => 1/2) 0
    ⟨60, 1, 0⟩ (Or.inl (by rw [h]; exact List.mem_singleton.mpr rfl))

/-- Claim C6: one character of Policy B with a nonempty pattern of k symbols
emits exactly 2k rows, whose (is_key_down, label) classes are the k pulses
in pattern order (Dit for a dot, Dah for a dash, all with key down)
interspersed with k - 1 ElementSpace gaps between consecutive pulses and
never after the last pulse, followed by exactly one terminal key-up gap:
a WordSpace when the draw t < 0.25, a LetterSpace otherwise. -/
theorem c6_policy_b_char_structure (p : List Sym) (hp : p ≠ [])
    (wpm sigma : ℚ) (z : ℕ → ℚ) (t : ℚ) :
    (emit_char_v3 p wpm sigma z t).length = 2 * p.length ∧
    (emit_char_v3 p wpm sigma z t).map (fun r => (r.is_key_down, r.label))
      = List.intersperse (0, 2)
          (p.map fun s => ((1 : ℕ), match s with | .dot => 0 | .dash => 1))
        ++ [((0 : ℕ), if t < 25/100 then 4 else 3)] := by
  constructor
  · rw [emit_char_v3, attach_durations_length, char_elements, List.length_append,
      pattern_elements_length p hp]
    have : 1 ≤ p.length := List.length_pos.mpr hp
    simp
    omega
  · rw [emit_char_v3, attach_durations_map_class, char_elements, List.map_append,
      pattern_elements_eq_intersperse, intersperse_map]
    have h1 : ((p.map pulse_elt).map fun e => (e.2.1, e.2.2))
        = p.map (fun s => ((1 : ℕ), match s with | Sym.dot => 0 | Sym.dash => 1)) := by
      rw [List.map_map]
      exact List.map_congr_left fun s _ => by cases s <;> rfl
    have h2 : (List.map (fun e : ℕ × ℕ × ℕ => (e.2.1, e.2.2))
          [if t < 25/100 then (WORD_GAP, 0, 4) else (LETTER_GAP, 0, 3)])
        = [((0 : ℕ), if t < 25/100 then 4 else 3)] := by
      by_cases ht : t < 25/100 <;> simp [ht]
    rw [h1, h2]

/-- Witness for C6 at the characters O (pattern dash dash dash) and
E (pattern dot): 3 Dahs interleaved with 2 ElementSpaces plus one terminal
gap (6 rows), and one Dit plus one terminal gap with no internal gap. -/
theorem c6_policy_b_char_structure_witness :
    morse_code.lookup 'O' = some [Sym.dash, Sym.dash, Sym.dash] ∧
    morse_code.lookup 'E' = some [Sym.dot] ∧
    (emit_char_v3 [Sym.dash, Sym.dash, Sym.dash] 12 0 (fun _ => 0) (1/2)).length = 6 ∧
    (emit_char_v3 [Sym.dash, Sym.dash, Sym.dash] 12 0 (fun _ => 0) (1/2)).map
      (fun r => (r.is_key_down, r.label))
      = [(1, 1), (0, 2), (1, 1), (0, 2), (1, 1), (0, 3)] ∧
    (emit_char_v3 [Sym.dot] 12 0 (fun _ => 0) (1/2)).map
      (fun r => (r.is_key_down, r.label)) = [(1, 0), (0, 3)] := by
  have hO := c6_policy_b_char_structure [Sym.dash, Sym.dash, Sym.dash]
    (by decide) 12 0 (fun _ => 0) (1/2)
  have hE := c6_policy_b_char_structure [Sym.dot] (by decide) 12 0 (fun _ => 0) (1/2)
  refine ⟨by decide, by decide, ?_, ?_, ?_⟩
  · rw [hO.1]
    simp
  · rw [hO.2]
    norm_num [List.intersperse]
  · rw [hE.2]
    norm_num [List.intersperse]

/-- Claim C7, counterexample: the v2 generator applies no duration floor.
The element generated by generate_morse_dataset_v2 from the draw
(u = 1, choice = 0.1, z = -20) at base_dit_ms = 100 is a Dit with
duration_ms = 100 * (1 + 0.08 * (-20)) = -60, which is not positive: the
statement that every generated element has duration_ms > 0 fails on the
v2 generator cited by the claim. -/
theorem c7_v2_nonpositive_duration_cex :
    ((generate_morse_dataset_v2 [(1, 1/10, -20)] 100).getD 0 ⟨0, 0, 0⟩).duration_ms
      = -60 ∧
    ¬ (0 < ((generate_morse_dataset_v2 [(1, 1/10, -20)] 100).getD 0
      ⟨0, 0, 0⟩).duration_ms) := by
  have h : generate_morse_dataset_v2 [(1, 1/10, -20)] 100 = [⟨-60, 1, 0⟩] := by
    norm_num [generate_morse_dataset_v2, gen_element_v2, jitter_v2]
  rw [h]
  refine ⟨rfl, by norm_num⟩

/-- Claim C7 as amended: the v3 jitter step apply_human_jitter always
returns at least 1.0 ms, for every input duration, sigma and Gaussian draw
(including zero and negative samples), and therefore every element
generated by either v3 policy has duration_ms at least 1 (hence positive);
the v2 generator, whose jitter lambda has no floor, is excluded. -/
theorem c7_v3_jitter_floor :
    (∀ d sigma z : ℚ, 1 ≤ apply_human_jitter d sigma z) ∧
    (∀ (n : ℕ) (wD cD zD : ℕ → ℚ) (sigma : ℚ) (r : Row),
      r ∈ generate_morse_dataset_v3 n wD cD zD sigma → 1 ≤ r.duration_ms) ∧
    (∀ (nc : ℕ) (wD : ℕ → ℚ) (pD : ℕ → List Sym) (zD : ℕ → ℕ → ℚ)
      (tD : ℕ → ℚ) (sigma : ℚ) (r : Row),
      r ∈ generate_sequence_based_data_v3 nc wD pD zD tD sigma →
      1 ≤ r.duration_ms) := by
  refine ⟨fun d sigma z => le_max_right _ _, ?_, ?_⟩
  · intro n wD cD zD sigma r hr
    rw [generate_morse_dataset_v3, List.mem_map] at hr
    obtain ⟨i, _, rfl⟩ := hr
    rw [gen_element_v3]
    exact le_max_right _ _
  · intro nc wD pD zD tD sigma r hr
    rw [generate_sequence_based_data_v3, List.mem_flatMap] at hr
    obtain ⟨i, _, hmem⟩ := hr
    obtain ⟨e, _, j, rfl⟩ := attach_durations_mem _ _ _ _ _ _ hmem
    exact le_max_right _ _

/-- Witness for C7 as amended: the floor at a negative jittered value, and a
concrete generated row of each v3 policy. -/
theorem c7_v3_jitter_floor_witness :
    (1 : ℚ) ≤ apply_human_jitter 5 2 (-3) ∧
    (1 : ℚ) ≤ (⟨60, 1, 0⟩ : Row).duration_ms := by
  refine ⟨c7_v3_jitter_floor.1 5 2 (-3), ?_⟩
  have h : generate_morse_dataset_v3 1 (fun _ => 20) (fun _ => 1/10)
      (fun _ => 0) 0 = [⟨60, 1, 0⟩] := by
    norm_num [generate_morse_dataset_v3, gen_element_v3, classify_choice,
      apply_human_jitter, dit_to_milliseconds, wpm_to_dit_duration, DIT_UNITS]
  exact c7_v3_jitter_floor.2.1 1 (fun _ => 20) (fun _ => 1/10) (fun _ => 0) 0
    ⟨60, 1, 0⟩ (by rw [h]; exact List.mem_singleton.mpr rfl)

/-! Claim theorem for the sequence window builder. -/

/-- Claim C4: on a stream of length N with window length L, create_sequences
produces exactly N - L (window, next-label) pairs; pair i is the window
covering stream positions i to i + L - 1 together with the label at
position i + L; when N is at most L it returns the empty list (no padding,
no wraparound, no exception); and the output is a function of the input
stream alone (deterministic). -/
theorem c4_window_builder_spec {α β : Type} (X : List α) (y : List β)
    (L : ℕ) (d : β) :
    (create_sequences X y L d).length = X.length - L ∧
    (∀ i, i < X.length - L →
      (create_sequences X y L d).getD i ([], d)
        = ((X.drop i).take L, y.getD (i + L) d)) ∧
    (X.length ≤ L → create_sequences X y L d = []) ∧
    (∀ X2 y2, X2 = X → y2 = y →
      create_sequences X2 y2 L d = create_sequences X y L d) := by
  refine ⟨by simp [create_sequences], ?_, ?_, ?_⟩
  · intro i hi
    rw [create_sequences, List.getD_eq_getElem?_getD, List.getElem?_map,
      List.getElem?_range hi]
    rfl
  · intro h
    rw [create_sequences, Nat.sub_eq_zero_of_le h]
    rfl
  · intro X2 y2 h1 h2
    rw [h1, h2]

/-- Witness for C4: a length-7 stream with L = 5 yields window 0 covering
positions 0-4 with target position 5, and a length-2 stream with L = 5
yields no windows. -/
theorem c4_window_builder_spec_witness :
    (create_sequences [1, 2, 3, 4, 5, 6, 7] [1, 2, 3, 4, 5, 6, 7] 5
      (0 : ℕ)).getD 0 ([], 0) = ([1, 2, 3, 4, 5], 6) ∧
    create_sequences [1, 2] [1, 2] 5 (0 : ℕ) = [] := by
  constructor
  · rw [(c4_window_builder_spec [1, 2, 3, 4, 5, 6, 7] [1, 2, 3, 4, 5, 6, 7]
      5 0).2.1 0 (by decide)]
    rfl
  · exact (c4_window_builder_spec [1, 2] [1, 2] 5 0).2.2.1 (by decide)

/-! Helper lemmas for the zero-jitter ratio analysis. -/

theorem dit_ms_eq (w : ℚ) : dit_to_milliseconds 1 w = 1200 / w := by
  rw [dit_to_milliseconds, wpm_to_dit_duration, one_mul, div_mul_eq_mul_div]
  norm_num

theorem one_le_dit_ms (w : ℚ) (hw : 0 < w) (hw2 : w ≤ 1200) :
    1 ≤ dit_to_milliseconds 1 w := by
  rw [dit_ms_eq]
  exact (one_le_div hw).mpr hw2

theorem dit_ms_pos (w : ℚ) (hw : 0 < w) : 0 < dit_to_milliseconds 1 w := by
  rw [dit_ms_eq]
  positivity

theorem dit_to_milliseconds_mul (u w : ℚ) :
    dit_to_milliseconds u w = u * dit_to_milliseconds 1 w := by
  rw [dit_to_milliseconds, dit_to_milliseconds]
  ring

/-- With sigma = 0 the Gaussian multiplier is exactly 1, so the jitter step
reduces to the floor against 1 ms. -/
theorem apply_human_jitter_sigma0 (d z : ℚ) :
    apply_human_jitter d 0 z = max d 1 := by
  rw [apply_human_jitter, show d * (1 + 0 * z) = d by ring]

theorem one_le_dit_mul (u w : ℚ) (hu : 1 ≤ u) (hw : 0 < w)
    (hw2 : w ≤ 1200) : 1 ≤ dit_to_milliseconds u w := by
  rw [dit_to_milliseconds_mul]
  nlinarith [one_le_dit_ms w hw hw2]

/-- With sigma = 0 and speed at most 1200 wpm (so the dit lasts at least
1 ms and the floor never clips), every generated element's duration is
exactly its unit multiple of the dit duration. -/
theorem gen_element_v3_duration_sigma0 (c w z : ℚ) (hw : 0 < w)
    (hw2 : w ≤ 1200) :
    (gen_element_v3 c w 0 z).duration_ms
      = (unitsOfLabel (gen_element_v3 c w 0 z).label : ℚ)
          * dit_to_milliseconds 1 w := by
  unfold gen_element_v3 classify_choice
  simp only [DIT_UNITS, DAH_UNITS, ELEMENT_GAP, LETTER_GAP, WORD_GAP]
  split_ifs <;>
    · dsimp only
      rw [apply_human_jitter_sigma0,
        max_eq_left (one_le_dit_mul _ w (by norm_num) hw hw2),
        dit_to_milliseconds_mul]
      norm_num [unitsOfLabel]

theorem mean_const (l : List ℚ) (c : ℚ) (hne : l ≠ [])
    (h : ∀ x ∈ l, x = c) : mean l = c := by
  rw [mean, List.sum_eq_card_nsmul l c h, nsmul_eq_mul]
  have hl : (l.length : ℚ) ≠ 0 :=
    Nat.cast_ne_zero.mpr (Nat.pos_iff_ne_zero.mp (List.length_pos.mpr hne))
  field_simp

theorem label_durations_mem (df : List Row) (lab : ℕ) (x : ℚ)
    (hx : x ∈ label_durations df lab) :
    ∃ r ∈ df, r.label = lab ∧ r.duration_ms = x := by
  rw [label_durations, List.mem_map] at hx
  obtain ⟨r, hr, rfl⟩ := hx
  rw [List.mem_filter] at hr
  exact ⟨r, hr.1, by simpa using hr.2, rfl⟩

/-- Claim C5: for a corpus generated by Policy A at one fixed speed w
(0 < w ≤ 1200, so every duration is at least 1 ms) with jitter sigma = 0,
as long as the compared classes are populated, the validator's measured
mean-duration ratios are exactly Dah:Dit = 3, LetterSpace:Dit = 3 and
WordSpace:Dit = 7: with zero jitter the jitter step is the identity and
every element's duration is exactly its unit multiple of the dit. -/
theorem c5_zero_jitter_exact_ratios (n : ℕ) (w : ℚ) (cD zD : ℕ → ℚ)
    (hw : 0 < w) (hw2 : w ≤ 1200) (df : List Row)
    (hdf : df = generate_morse_dataset_v3 n (fun _ => w) cD zD 0)
    (h0 : label_durations df 0 ≠ []) (h1 : label_durations df 1 ≠ [])
    (h3 : label_durations df 3 ≠ []) (h4 : label_durations df 4 ≠ []) :
    ratio_vs_dit df 1 = 3 ∧ ratio_vs_dit df 3 = 3 ∧ ratio_vs_dit df 4 = 7 := by
  have hall : ∀ lab : ℕ, ∀ x ∈ label_durations df lab,
      x = (unitsOfLabel lab : ℚ) * dit_to_milliseconds 1 w := by
    intro lab x hx
    obtain ⟨r, hr, hlab, hdur⟩ := label_durations_mem df lab x hx
    rw [hdf, generate_morse_dataset_v3, List.mem_map] at hr
    obtain ⟨i, _, rfl⟩ := hr
    rw [← hdur, ← hlab]
    exact gen_element_v3_duration_sigma0 _ _ _ hw hw2
  have hmean : ∀ lab : ℕ, label_durations df lab ≠ [] →
      mean_duration df lab
        = (unitsOfLabel lab : ℚ) * dit_to_milliseconds 1 w :=
    fun lab hne => mean_const _ _ hne (hall lab)
  have hd0 : dit_to_milliseconds 1 w ≠ 0 := ne_of_gt (dit_ms_pos w hw)
  have hbase : mean_duration df 0 = dit_to_milliseconds 1 w := by
    rw [hmean 0 h0]
    norm_num [unitsOfLabel]
  refine ⟨?_, ?_, ?_⟩
  · rw [ratio_vs_dit, hmean 1 h1, hbase, mul_div_assoc, div_self hd0, mul_one]
    norm_num [unitsOfLabel]
  · rw [ratio_vs_dit, hmean 3 h3, hbase, mul_div_assoc, div_self hd0, mul_one]
    norm_num [unitsOfLabel]
  · rw [ratio_vs_dit, hmean 4 h4, hbase, mul_div_assoc, div_self hd0, mul_one]
    norm_num [unitsOfLabel]

/-- Witness for C5: five elements at fixed 20 wpm (dit = 60 ms) with
sigma = 0, one of each class; the measured ratios are exactly 3, 3, 7. -/
theorem c5_zero_jitter_exact_ratios_witness :
    ratio_vs_dit (generate_morse_dataset_v3 5 (fun _ => 20)
      (fun i => [1/10, 3/10, 4/10, 6/10, 9/10].getD i 0) (fun _ => 0) 0) 1 = 3 ∧
    ratio_vs_dit (generate_morse_dataset_v3 5 (fun _ => 20)
      (fun i => [1/10, 3/10, 4/10, 6/10, 9/10].getD i 0) (fun _ => 0) 0) 3 = 3 ∧
    ratio_vs_dit (generate_morse_dataset_v3 5 (fun _ => 20)
      (fun i => [1/10, 3/10, 4/10, 6/10, 9/10].getD i 0) (fun _ => 0) 0) 4 = 7 := by
  have hdf : generate_morse_dataset_v3 5 (fun _ => 20)
      (fun i => [1/10, 3/10, 4/10, 6/10, 9/10].getD i 0) (fun _ => 0) 0
      = [⟨60, 1, 0⟩, ⟨180, 1, 1⟩, ⟨60, 0, 2⟩, ⟨180, 0, 3⟩, ⟨420, 0, 4⟩] := by
    norm_num [generate_morse_dataset_v3, gen_element_v3, classify_choice,
      apply_human_jitter, dit_to_milliseconds, wpm_to_dit_duration,
      DIT_UNITS, DAH_UNITS, ELEMENT_GAP, LETTER_GAP, WORD_GAP, List.range_succ]
  exact c5_zero_jitter_exact_ratios 5 20 _ _ (by norm_num) (by norm_num) _ rfl
    (by rw [hdf]; decide) (by rw [hdf]; decide)
    (by rw [hdf]; decide) (by rw [hdf]; decide)

/-! Claim theorems for the ratio validator's error behaviour. -/

/-- Claim C9, counterexample: on a corpus holding a single Dah and no Dit,
validate_timing_standards reads the missing Dit entry of the results dict
(results[0], v3 line 268) and raises KeyError (modelled as none) instead of
returning statistics and verdicts. -/
theorem c9_missing_class_raises_cex :
    validate_timing_standards [⟨3, 1, 1⟩] = none := by
  rfl

/-- Claim C9 as amended: the validator returns statistics and a pass/fail
verdict per ratio, without raising, for every corpus in which the four
classes it compares (Dit, Dah, LetterSpace, WordSpace) each have at least
one element; when one of those classes is absent the unconditional dict
reads at v3 lines 268 and 280-287 raise KeyError. -/
theorem c9_validator_total_when_classes_present (df : List Row)
    (h0 : label_durations df 0 ≠ []) (h1 : label_durations df 1 ≠ [])
    (h3 : label_durations df 3 ≠ []) (h4 : label_durations df 4 ≠ []) :
    ∃ stats verdicts, validate_timing_standards df = some (stats, verdicts) := by
  have e0 : results_entry df 0
      = some (mean_duration df 0, (label_durations df 0).length) := by
    rw [results_entry, if_pos (List.length_pos.mpr h0)]
  have e1 : results_entry df 1
      = some (mean_duration df 1, (label_durations df 1).length) := by
    rw [results_entry, if_pos (List.length_pos.mpr h1)]
  have e3 : results_entry df 3
      = some (mean_duration df 3, (label_durations df 3).length) := by
    rw [results_entry, if_pos (List.length_pos.mpr h3)]
  have e4 : results_entry df 4
      = some (mean_duration df 4, (label_durations df 4).length) := by
    rw [results_entry, if_pos (List.length_pos.mpr h4)]
  rw [validate_timing_standards, e0, e1, e3, e4]
  exact ⟨_, _, rfl⟩

/-- Witness for C9 as amended: a four-row corpus with one element of each
compared class is validated without error. -/
theorem c9_validator_total_when_classes_present_witness :
    ∃ stats verdicts,
      validate_timing_standards [⟨60, 1, 0⟩, ⟨180, 1, 1⟩, ⟨180, 0, 3⟩,
        ⟨420, 0, 4⟩] = some (stats, verdicts) := by
  exact c9_validator_total_when_classes_present _
    (by decide) (by decide) (by decide) (by decide)

/-! Claim theorem for the v2 sequence generator's terminal gap. -/

/-- Attaching v2 durations does not change keys or labels. -/
theorem attach_durations_v2_map_class (dit : ℚ) (z : ℕ → ℚ) :
    ∀ (l : List (ℕ × ℕ × ℕ)) (i : ℕ),
      (attach_durations_v2 dit z l i).map (fun r => (r.is_key_down, r.label))
        = l.map fun e => (e.2.1, e.2.2) := by
  intro l
  induction l with
  | nil => intro i; rfl
  | cons e rest ih => intro i; simp [attach_durations_v2, ih]

/-- Claim C10: in the v2 character generator the terminal gap of every
character is a 7-unit WordSpace with label 3 exactly when the draw
t < 0.3 (probability 0.3) and otherwise a 3-unit gap recorded with label 2
(probability 0.7) - the same label as the 1-unit internal ElementSpace -
so label 2 covers both 1-unit and 3-unit canonical durations and the v2
output uses only labels 0-3, with no distinct LetterGap label. -/
theorem c10_v2_terminal_gap_label (p : List Sym) (dit : ℚ) (z : ℕ → ℚ)
    (t : ℚ) :
    (char_elements_v2 p t).getLast?
      = some (if t < 3/10 then (7, 0, 3) else (3, 0, 2)) ∧
    (∀ e ∈ char_elements_v2 p t,
      e.2.2 = 0 ∨ e.2.2 = 1 ∨ e.2.2 = 2 ∨ e.2.2 = 3) ∧
    (∀ e ∈ char_elements_v2 p t, e.2.2 = 2 → e.1 = 1 ∨ e.1 = 3) ∧
    (∀ e ∈ pattern_elements p, e.2.2 = 2 → e.1 = 1) ∧
    (emit_char_v2 p dit z t).map (fun r => (r.is_key_down, r.label))
      = (char_elements_v2 p t).map fun e => (e.2.1, e.2.2) := by
  refine ⟨?_, ?_, ?_, ?_, ?_⟩
  · rw [char_elements_v2]
    exact List.getLast?_concat _
  · intro e he
    rw [char_elements_v2, List.mem_append] at he
    rcases he with he | he
    · rcases pattern_elements_mem p e he with h | h | h <;> simp [h]
    · simp only [List.mem_singleton] at he
      by_cases ht : t < 3/10 <;> simp [ht] at he <;> simp [he]
  · intro e he
    rw [char_elements_v2, List.mem_append] at he
    rcases he with he | he
    · rcases pattern_elements_mem p e he with h | h | h <;> simp [h]
    · simp only [List.mem_singleton] at he
      by_cases ht : t < 3/10 <;> simp [ht] at he <;> simp [he]
  · intro e he
    rcases pattern_elements_mem p e he with h | h | h <;> simp [h]
  · rw [emit_char_v2, attach_durations_v2_map_class]

/-- Witness for C10 at the pattern of E (one dot): with draw 1/2 the
terminal element is the 3-unit label-2 gap, with draw 1/10 the 7-unit
label-3 WordSpace. -/
theorem c10_v2_terminal_gap_label_witness :
    (char_elements_v2 [Sym.dot] (1/2)).getLast? = some (3, 0, 2) ∧
    (char_elements_v2 [Sym.dot] (1/10)).getLast? = some (7, 0, 3) := by
  constructor
  · rw [(c10_v2_terminal_gap_label [Sym.dot] 100 (fun _ => 0) (1/2)).1]
    norm_num
  · rw [(c10_v2_terminal_gap_label [Sym.dot] 100 (fun _ => 0) (1/10)).1]
    norm_num

end Morse
